import Mathlib

/-!
Verification of the model-sheet banner layout and versioned-publish naming
logic of the `tk-photoshopcc` plugin (files `add_model_sheet_layer.py` and
`model_sheet_layer.py`).  Strings are modelled as `List Char` (Python `str`);
the helpers below model the Python string operations the code uses
(`split`, `rsplit(sep, 1)`, `replace`).  External collaborators (the
production database, the Photoshop RPC bridge, the filesystem) are
abstracted: functions take the values those collaborators would return as
explicit arguments, and side-effecting publish steps are modelled as an
emitted event trace.
-/

/-- Coerce a Lean string literal to the `List Char` representation used
throughout. -/
def str (s : String) : List Char := s.data

/-- Model of Python `s.split(sep)` / unbounded `s.rsplit(sep)` for a
single-character separator: split at every occurrence; the empty string
yields `[[]]`, matching Python's `"".split('.') == ['']`. -/
def pySplit (sep : Char) : List Char → List (List Char)
  | [] => [[]]
  | c :: rest =>
      if c = sep then [] :: pySplit sep rest
      else
        match pySplit sep rest with
        | [] => [[c]]
        | h :: t => (c :: h) :: t

/-- Model of Python `s.rsplit(sep, 1)`: split at the last occurrence of the
separator, returning the pieces before and after it, or `none` when the
separator does not occur (in which case the Python unpacking
`a, b = s.rsplit(sep, 1)` raises and the caller's `except` branch runs). -/
def pyRSplit1 (sep : Char) : List Char → Option (List Char × List Char)
  | [] => none
  | c :: rest =>
      match pyRSplit1 sep rest with
      | some (a, b) => some (c :: a, b)
      | none => if c = sep then some ([], rest) else none

/-- Fuel-driven worker for `pyStrReplace`. -/
def pyReplaceFuel : Nat → List Char → List Char → List Char → List Char
  | 0, _, _, s => s
  | _ + 1, _, _, [] => []
  | fuel + 1, pat, rep, c :: rest =>
      if pat.isPrefixOf (c :: rest) then
        rep ++ pyReplaceFuel fuel pat rep (List.drop pat.length (c :: rest))
      else
        c :: pyReplaceFuel fuel pat rep rest

/-- Model of Python `s.replace(old, new)` (replace every non-overlapping
occurrence, scanning left to right); only used with non-empty patterns. -/
def pyStrReplace (s old new : List Char) : List Char :=
  pyReplaceFuel s.length old new s

/-- Model of Python truthiness of a string: non-empty is truthy. -/
def pyTruthy (s : List Char) : Bool := !s.isEmpty

/- ------------------------------------------------------------------ -/
/- Banner layout calculator: `model_sheet_layer.py`.                    -/
/- ------------------------------------------------------------------ -/

/-- `model_sheet_layer.py` lines 40-41 and 103:
`_banner_height = int(max(_banner_min_height, _width * _banner_aspect))`
with `_banner_min_height = 150` and `_banner_aspect = 0.08`.
The Python float product is modelled exactly in `ℚ` (`(0.08 : ℚ)` is the
exact decimal `8/100`; the double-precision product agrees with the exact
product after flooring for every realistic pixel width, and the value is
positive so `int(...)` truncation coincides with the floor). -/
def banner_height (w : ℕ) : ℕ := ⌊max (150 : ℚ) ((w : ℚ) * 0.08)⌋₊

/-- `model_sheet_layer.py` line 104: `_canvas_height = _height + _banner_height`. -/
def canvas_height (w h : ℕ) : ℕ := h + banner_height w

/-- C1: for every document pixel width `w` the computed banner height equals
`max(150, floor(w * 0.08))`, and the function is monotonically
non-decreasing in `w`. -/
theorem banner_height_spec :
    (∀ w : ℕ, banner_height w = max 150 ⌊(w : ℚ) * 0.08⌋₊) ∧
    (∀ w w' : ℕ, w ≤ w' → banner_height w ≤ banner_height w') := by
  constructor
  · intro w
    unfold banner_height
    rcases le_total ((w : ℚ) * 0.08) 150 with h | h
    · rw [max_eq_left h]
      have hf : ⌊(w : ℚ) * 0.08⌋₊ ≤ 150 := by
        have := Nat.floor_le_floor (α := ℚ) h
        simpa using this
      rw [max_eq_left hf]
      norm_num
    · rw [max_eq_right h]
      have hf : 150 ≤ ⌊(w : ℚ) * 0.08⌋₊ := by
        have := Nat.floor_le_floor (α := ℚ) h
        simpa using this
      rw [max_eq_right hf]
  · intro w w' hw
    unfold banner_height
    apply Nat.floor_le_floor
    apply max_le_max le_rfl
    have : (w : ℚ) ≤ (w' : ℚ) := by exact_mod_cast hw
    nlinarith

/-- Witness for C1: the monotonicity conjunct applied at the concrete
widths 100 and 5000. -/
theorem banner_height_spec_witness :
    banner_height 100 ≤ banner_height 5000 :=
  banner_height_spec.2 100 5000 (by norm_num)

/-- `model_sheet_layer.py` lines 259-269: contents of the `text_layer1`
("Model Sheet Labels") block, built only in the 2D branch. -/
def model_sheet_label_main (version_name asset_type task_name : List Char) :
    List Char :=
  let l := str "Project : "
  let l := if version_name ≠ [] then l ++ str "\rVersion Name: " else l
  let l := l ++ str "\rAsset Name : "
  let l := if asset_type ≠ [] then l ++ str "\rType : " else l
  let l := if task_name ≠ [] then l ++ str "\rTask : " else l
  l

/-- `model_sheet_layer.py` lines 302-325: contents of the `text_layer2`
("Model Sheet Info") block in the 3D branch. -/
def model_sheet_text_3d
    (project_name episode_name asset_type task_name asset_name assigned_to
      version_name : List Char) : List Char :=
  let t :=
    if episode_name = [] then project_name ++ str "\r"
    else project_name ++ str "                      Ep: " ++ episode_name ++ str "\r"
  let t :=
    if task_name ≠ [] then t ++ asset_type ++ str "                      " ++ task_name ++ str "\r"
    else t ++ asset_type ++ str "\r"
  let t := if asset_name ≠ [] then t ++ asset_name ++ str "\r" else t
  let t := if assigned_to ≠ [] then t ++ assigned_to ++ str "\r" else t
  let t := if version_name ≠ [] then t ++ version_name ++ str "\r" else t
  t

/-- `model_sheet_layer.py` lines 329-339: contents of the `text_layer2`
("Model Sheet Info") block in the non-3D (2D) branch. -/
def model_sheet_text_2d
    (project_name version_name asset_name asset_type task_name : List Char) :
    List Char :=
  let t := project_name ++ str "\r"
  let t := if version_name ≠ [] then t ++ version_name ++ str "\r" else t
  let t := t ++ asset_name ++ str "\r"
  let t := if asset_type ≠ [] then t ++ asset_type ++ str "\r" else t
  let t := if task_name ≠ [] then t ++ task_name ++ str "\r" else t
  t

/-- `model_sheet_layer.py` lines 374-384: contents of the `text_layer3`
("2D Model Sheet Labels") block. -/
def model_sheet_label_2d
    (episode_name ship_episode current_sc sap_number assigned_to : List Char) :
    List Char :=
  let l : List Char := []
  let l := if episode_name ≠ [] then l ++ str "Episode : " ++ str "\r" else l
  let l := if ship_episode ≠ [] then l ++ str "Ship Episode : " ++ str "\r" else l
  let l := if current_sc ≠ [] then l ++ str "Current Scene : " ++ str "\r" else l
  let l := if sap_number ≠ [] then l ++ str "SAP Number : " ++ str "\r" else l
  let l := if assigned_to ≠ [] then l ++ str "Assigned To : " ++ str "\r" else l
  l

/-- `model_sheet_layer.py` lines 415-426: contents of the `text_layer4`
("2D Model Sheet Info") block. -/
def model_sheet_info_2d
    (episode_name ship_episode current_sc sap_number assigned_to : List Char) :
    List Char :=
  let t : List Char := []
  let t := if episode_name ≠ [] then t ++ episode_name ++ str "\r" else t
  let t := if ship_episode ≠ [] then t ++ ship_episode ++ str "\r" else t
  let t := if current_sc ≠ [] then t ++ current_sc ++ str "\r" else t
  let t := if sap_number ≠ [] then t ++ sap_number ++ str "\r" else t
  let t := if assigned_to ≠ [] then t ++ assigned_to ++ str "\r" else t
  t

/-- `model_sheet_layer.py` lines 460-464: the fixed five-line disclaimer. -/
def disclaimer_contents : List Char :=
  str "(c) WARNER BROS. ENTERTAINMENT.\r" ++
  str "THIS MATERIAL IS THE PROPERTY OF WARNER BROS. ANIMATION.\r" ++
  str "IT IS UNPUBLISHED & MUST NOT BE DISTRIBUTED,\r" ++
  str "DUPLICATED OR USED IN ANY MANNER, EXCEPT FOR PRODUCTION\r" ++
  str "PURPOSES, AND MAY NOT BE SOLD OR TRANSFERRED.\r"

/-- Observable result of one `model_sheet_layer(...)` call: the computed
geometry and the contents the function writes into each layer it creates.
`none` fields correspond to layers the call does not create. -/
structure BannerOutput where
  bannerHeight : ℕ
  canvasHeight : ℕ
  canvasResized : Bool
  bgColor : Option (ℕ × ℕ × ℕ)
  logoAttempted : Bool
  textRGB : ℕ × ℕ × ℕ
  labelsMain : Option (List Char)
  infoText : List Char
  labels2d : Option (List Char)
  info2d : Option (List Char)
  disclaimer : Option (List Char)
  deriving DecidableEq

/-- Shallow embedding of `model_sheet_layer.py` lines 16-466 (the pure,
observable part of `model_sheet_layer`): geometry from lines 103-104,
background colour from lines 126-141, canvas resize decision from lines
112-146 (`existing_banner` — whether a layer named "WBA Model Sheet" was
present — is an input read from the document), the logo branch guard from
line 177 (`project_type == '3D' or '2D'`, i.e. the boolean
`(project_type == '3D') or truthy('2D')`), the text-colour policy repeated
at lines 250-257 etc., and the five text blocks.  The display options
`show_logo`, `show_labels` and `show_date` are accepted, as in the source
signature (lines 30-32), and are never read by the body. -/
def model_sheet_layer
    (project_name project_type asset_name task_name version_name asset_type
      episode_name ship_episode current_sc sap_number assigned_to
      banner_color font : List Char)
    (width height : ℕ) (existing_banner : Bool)
    (show_logo show_labels show_date show_disclaimer : Bool) : BannerOutput :=
  let _ := font
  let _ := (show_logo, show_labels, show_date)
  let bh := banner_height width
  let bg : Option (ℕ × ℕ × ℕ) :=
    if banner_color = str "Black" then some (0, 0, 0)
    else if banner_color = str "Dark Gray" then some (50, 50, 50)
    else if banner_color = str "Middle Gray" then some (125, 125, 125)
    else if banner_color = str "White" then some (255, 255, 255)
    else none
  let textRGB : ℕ × ℕ × ℕ :=
    if banner_color ∈ [str "Dark Gray", str "Black"] then (245, 245, 245)
    else (10, 10, 10)
  { bannerHeight := bh
    canvasHeight := canvas_height width height
    canvasResized := !existing_banner
    bgColor := bg
    logoAttempted := decide (project_type = str "3D") || pyTruthy (str "2D")
    textRGB := textRGB
    labelsMain :=
      if project_type = str "2D" then
        some (model_sheet_label_main version_name asset_type task_name)
      else none
    infoText :=
      if project_type = str "3D" then
        model_sheet_text_3d project_name episode_name asset_type task_name
          asset_name assigned_to version_name
      else
        model_sheet_text_2d project_name version_name asset_name asset_type
          task_name
    labels2d :=
      if project_type = str "2D" then
        some (model_sheet_label_2d episode_name ship_episode current_sc
          sap_number assigned_to)
      else none
    info2d :=
      if project_type = str "2D" then
        some (model_sheet_info_2d episode_name ship_episode current_sc
          sap_number assigned_to)
      else none
    disclaimer := if show_disclaimer then some disclaimer_contents else none }

/-- C9: the banner output is independent of the `show_logo`, `show_labels`
and `show_date` display options (they are accepted but never read), and the
logo branch runs unconditionally because its guard
`project_type == '3D' or '2D'` is always true. -/
theorem banner_ignores_display_flags :
    ∀ (pn pt an tn vn at_ en se cs sap asg bc fnt : List Char)
      (w h : ℕ) (eb : Bool) (sl₁ sb₁ sd₁ sl₂ sb₂ sd₂ sdisc : Bool),
      model_sheet_layer pn pt an tn vn at_ en se cs sap asg bc fnt w h eb
          sl₁ sb₁ sd₁ sdisc =
        model_sheet_layer pn pt an tn vn at_ en se cs sap asg bc fnt w h eb
          sl₂ sb₂ sd₂ sdisc ∧
      (model_sheet_layer pn pt an tn vn at_ en se cs sap asg bc fnt w h eb
          sl₁ sb₁ sd₁ sdisc).logoAttempted = true := by
  intro pn pt an tn vn at_ en se cs sap asg bc fnt w h eb sl₁ sb₁ sd₁ sl₂ sb₂ sd₂ sdisc
  refine ⟨rfl, ?_⟩
  show (decide (pt = str "3D") || pyTruthy (str "2D")) = true
  have h2 : pyTruthy (str "2D") = true := rfl
  rw [h2, Bool.or_true]

/- ------------------------------------------------------------------ -/
/- C4: alignment of the 2D secondary label/info blocks.                 -/
/- ------------------------------------------------------------------ -/

/-- `pySplit` never returns the empty list. -/
theorem pySplit_ne_nil (sep : Char) (s : List Char) : pySplit sep s ≠ [] := by
  induction s with
  | nil => simp [pySplit]
  | cons c rest ih =>
    by_cases h : c = sep
    · simp [pySplit, h]
    · cases hr : pySplit sep rest with
      | nil => exact absurd hr ih
      | cons a t => simp [pySplit, h, hr]

/-- Splitting a string that starts with a separator-free chunk followed by
the separator peels off that chunk. -/
theorem pySplit_append_cons (sep : Char) (a t : List Char) (ha : sep ∉ a) :
    pySplit sep (a ++ sep :: t) = a :: pySplit sep t := by
  induction a with
  | nil => simp [pySplit]
  | cons x a' ih =>
    have hx : x ≠ sep := by
      intro h; exact ha (h ▸ List.mem_cons_self x a')
    have ha' : sep ∉ a' := fun h => ha (List.mem_cons_of_mem x h)
    simp only [List.cons_append, pySplit, if_neg hx]
    rw [show a'.append (sep :: t) = a' ++ sep :: t from rfl, ih ha']

/-- The lines of a text block: the code terminates every line it emits with
a `"\r"`, so the block's lines are the `'\r'`-separated pieces minus the
final empty piece. -/
def linesOf (s : List Char) : List (List Char) := (pySplit '\r' s).dropLast

/-- Splitting a concatenation of `'\r'`-terminated, `'\r'`-free lines
recovers exactly those lines. -/
theorem linesOf_flatten (L : List (List Char))
    (h : ∀ l ∈ L, ('\r' : Char) ∉ l) :
    linesOf ((L.map (fun l => l ++ str "\r")).flatten) = L := by
  induction L with
  | nil => rfl
  | cons l L ih =>
    have hl : ('\r' : Char) ∉ l := h l (List.mem_cons_self l L)
    have hL : ∀ x ∈ L, ('\r' : Char) ∉ x := fun x hx => h x (List.mem_cons_of_mem l hx)
    have harr : ((l :: L).map (fun l => l ++ str "\r")).flatten =
        l ++ '\r' :: (L.map (fun l => l ++ str "\r")).flatten := by
      simp [str]
    rw [harr]
    unfold linesOf
    rw [pySplit_append_cons '\r' l _ hl]
    rw [List.dropLast_cons_of_ne_nil (pySplit_ne_nil '\r' _)]
    rw [show (pySplit '\r' ((L.map (fun l => l ++ str "\r")).flatten)).dropLast =
          linesOf ((L.map (fun l => l ++ str "\r")).flatten) from rfl]
    rw [ih hL]

/-- Spec-side description of the 2D secondary blocks (the refinement target
for C4): the list of (label, value) pairs the layout includes — one pair
per optional field whose value is non-empty, in the fixed order episode,
ship-episode, current-scene, SAP number, assigned-to. -/
def twoD_optional_fields
    (episode_name ship_episode current_sc sap_number assigned_to : List Char) :
    List (List Char × List Char) :=
  (if episode_name ≠ [] then [(str "Episode : ", episode_name)] else []) ++
  (if ship_episode ≠ [] then [(str "Ship Episode : ", ship_episode)] else []) ++
  (if current_sc ≠ [] then [(str "Current Scene : ", current_sc)] else []) ++
  (if sap_number ≠ [] then [(str "SAP Number : ", sap_number)] else []) ++
  (if assigned_to ≠ [] then [(str "Assigned To : ", assigned_to)] else [])

/-- Every pair selected for the 2D secondary blocks has one of the five
fixed labels and one of the five field values. -/
theorem twoD_optional_fields_mem
    (e se sc sap asg : List Char) (q : List Char × List Char)
    (hq : q ∈ twoD_optional_fields e se sc sap asg) :
    q.1 ∈ [str "Episode : ", str "Ship Episode : ", str "Current Scene : ",
            str "SAP Number : ", str "Assigned To : "] ∧
    q.2 ∈ [e, se, sc, sap, asg] := by
  by_cases h1 : e = [] <;> by_cases h2 : se = [] <;> by_cases h3 : sc = [] <;>
    by_cases h4 : sap = [] <;> by_cases h5 : asg = [] <;>
    simp_all [twoD_optional_fields] <;> aesop

/-- C4: in the TwoD layout the secondary label block and secondary info
block are index-aligned: both are exactly the concatenation of the
`'\r'`-terminated labels (resp. values) of the same filtered field list, so
a field contributes a line to one block iff it contributes to the other,
the blocks have the same number of lines, and corresponding lines appear in
the same relative order. -/
theorem twoD_blocks_aligned :
    ∀ e se sc sap asg : List Char,
      model_sheet_label_2d e se sc sap asg =
        ((twoD_optional_fields e se sc sap asg).map
          (fun q => q.1 ++ str "\r")).flatten ∧
      model_sheet_info_2d e se sc sap asg =
        ((twoD_optional_fields e se sc sap asg).map
          (fun q => q.2 ++ str "\r")).flatten ∧
      ((∀ v ∈ [e, se, sc, sap, asg], ('\r' : Char) ∉ v) →
        linesOf (model_sheet_label_2d e se sc sap asg) =
          (twoD_optional_fields e se sc sap asg).map Prod.fst ∧
        linesOf (model_sheet_info_2d e se sc sap asg) =
          (twoD_optional_fields e se sc sap asg).map Prod.snd ∧
        (linesOf (model_sheet_label_2d e se sc sap asg)).length =
          (linesOf (model_sheet_info_2d e se sc sap asg)).length) := by
  intro e se sc sap asg
  have h1 : model_sheet_label_2d e se sc sap asg =
      ((twoD_optional_fields e se sc sap asg).map
        (fun q => q.1 ++ str "\r")).flatten := by
    by_cases he : e = [] <;> by_cases hse : se = [] <;> by_cases hsc : sc = [] <;>
      by_cases hsap : sap = [] <;> by_cases hasg : asg = [] <;>
      simp [model_sheet_label_2d, twoD_optional_fields, he, hse, hsc, hsap, hasg]
  have h2 : model_sheet_info_2d e se sc sap asg =
      ((twoD_optional_fields e se sc sap asg).map
        (fun q => q.2 ++ str "\r")).flatten := by
    by_cases he : e = [] <;> by_cases hse : se = [] <;> by_cases hsc : sc = [] <;>
      by_cases hsap : sap = [] <;> by_cases hasg : asg = [] <;>
      simp [model_sheet_info_2d, twoD_optional_fields, he, hse, hsc, hsap, hasg]
  refine ⟨h1, h2, ?_⟩
  intro hv
  have hfst : ∀ l ∈ (twoD_optional_fields e se sc sap asg).map Prod.fst,
      ('\r' : Char) ∉ l := by
    intro l hl
    rw [List.mem_map] at hl
    obtain ⟨q, hq, rfl⟩ := hl
    have := (twoD_optional_fields_mem e se sc sap asg q hq).1
    simp only [List.mem_cons, List.not_mem_nil, or_false] at this
    rcases this with h | h | h | h | h <;> rw [h] <;> decide
  have hsnd : ∀ l ∈ (twoD_optional_fields e se sc sap asg).map Prod.snd,
      ('\r' : Char) ∉ l := by
    intro l hl
    rw [List.mem_map] at hl
    obtain ⟨q, hq, rfl⟩ := hl
    have := (twoD_optional_fields_mem e se sc sap asg q hq).2
    exact hv q.2 this
  have e1 : linesOf (model_sheet_label_2d e se sc sap asg) =
      (twoD_optional_fields e se sc sap asg).map Prod.fst := by
    rw [h1, show ((twoD_optional_fields e se sc sap asg).map
          (fun q => q.1 ++ str "\r")) =
        (((twoD_optional_fields e se sc sap asg).map Prod.fst).map
          (fun l => l ++ str "\r")) by simp [List.map_map]]
    exact linesOf_flatten _ hfst
  have e2 : linesOf (model_sheet_info_2d e se sc sap asg) =
      (twoD_optional_fields e se sc sap asg).map Prod.snd := by
    rw [h2, show ((twoD_optional_fields e se sc sap asg).map
          (fun q => q.2 ++ str "\r")) =
        (((twoD_optional_fields e se sc sap asg).map Prod.snd).map
          (fun l => l ++ str "\r")) by simp [List.map_map]]
    exact linesOf_flatten _ hsnd
  refine ⟨e1, e2, ?_⟩
  rw [e1, e2]
  simp

/-- Witness for C4: concrete field values (SAP number and ship-episode
empty) where the label and info blocks still line up. -/
theorem twoD_blocks_aligned_witness :
    (∀ v ∈ [str "101", ([] : List Char), str "SC010", ([] : List Char),
        str "Ann, Bob"], ('\r' : Char) ∉ v) ∧
    (linesOf (model_sheet_label_2d (str "101") [] (str "SC010") []
        (str "Ann, Bob"))).length =
      (linesOf (model_sheet_info_2d (str "101") [] (str "SC010") []
        (str "Ann, Bob"))).length :=
  ⟨by decide,
    ((twoD_blocks_aligned (str "101") [] (str "SC010") []
        (str "Ann, Bob")).2.2 (by decide)).2.2⟩

/- ------------------------------------------------------------------ -/
/- C5: the "Ep:" segment of the 3D main-info block.                     -/
/- ------------------------------------------------------------------ -/

/-- The first line of a text block (everything before the first `'\r'`). -/
def firstLine (s : List Char) : List Char := s.takeWhile (fun c => c != '\r')

/-- `takeWhile` walks through a chunk all of whose characters satisfy the
predicate. -/
theorem takeWhile_append_all (p : Char → Bool) (a b : List Char)
    (h : ∀ x ∈ a, p x = true) :
    (a ++ b).takeWhile p = a ++ b.takeWhile p := by
  induction a with
  | nil => simp
  | cons x a' ih =>
    have hx := h x (List.mem_cons_self x a')
    have ha' := fun y hy => h y (List.mem_cons_of_mem x hy)
    simp [List.takeWhile_cons, hx, ih ha']

/-- The first line of a chunk of `'\r'`-free text followed by a `'\r'` is
that chunk. -/
theorem firstLine_of_shape (a b : List Char)
    (ha : ∀ x ∈ a, (x != '\r') = true) :
    firstLine (a ++ '\r' :: b) = a := by
  unfold firstLine
  rw [takeWhile_append_all _ _ _ ha]
  have h : (('\r' : Char) != '\r') = false := by decide
  simp [List.takeWhile_cons, h]

/-- C5: in the ThreeD layout, an empty episode name yields a main-info text
with no "Ep:" segment (provided the metadata fields themselves contain no
colon character, so no field smuggles such a segment in), and episode name
"101" puts exactly the segment "Ep: 101" at the end of the first line. -/
theorem threeD_episode_segment :
    ∀ pn en at_ tn an asg vn : List Char,
      (en = [] →
        (∀ f ∈ [pn, at_, tn, an, asg, vn], (':' : Char) ∉ f) →
        ¬ str "Ep:" <:+: model_sheet_text_3d pn en at_ tn an asg vn) ∧
      (en = str "101" → ('\r' : Char) ∉ pn →
        firstLine (model_sheet_text_3d pn en at_ tn an asg vn) =
          pn ++ str "                      Ep: 101" ∧
        str "Ep: 101" <:+:
          firstLine (model_sheet_text_3d pn en at_ tn an asg vn)) := by
  intro pn en at_ tn an asg vn
  constructor
  · intro he hcf hinf
    subst he
    have hpn := hcf pn (by simp)
    have hat := hcf at_ (by simp)
    have htn := hcf tn (by simp)
    have han := hcf an (by simp)
    have hasg := hcf asg (by simp)
    have hvn := hcf vn (by simp)
    have hr : (':' : Char) ∉ str "\r" := by decide
    have hsp : (':' : Char) ∉ str "                      " := by decide
    obtain ⟨u, v, huv⟩ := hinf
    have hcol : (':' : Char) ∈ model_sheet_text_3d pn [] at_ tn an asg vn := by
      rw [← huv]
      have : (':' : Char) ∈ str "Ep:" := by decide
      simp [List.mem_append, this]
    simp only [model_sheet_text_3d] at hcol
    split_ifs at hcol <;> simp_all [List.mem_append]
  · intro he hrpn
    subst he
    have hsp : ∀ x ∈ str "                      Ep: " ++ str "101",
        (x != '\r') = true := by decide
    have hall : ∀ x ∈ pn ++ (str "                      Ep: " ++ str "101"),
        (x != '\r') = true := by
      intro x hx
      rcases List.mem_append.mp hx with hx | hx
      · have : x ≠ '\r' := fun hc => hrpn (hc ▸ hx)
        simpa [bne] using this
      · exact hsp x hx
    have hlit : str "                      Ep: " ++ str "101" =
        str "                      Ep: 101" := by decide
    have shape : ∀ junk : List Char,
        firstLine (pn ++ (str "                      Ep: " ++
            (str "101" ++ (str "\r" ++ junk)))) =
          pn ++ str "                      Ep: 101" := by
      intro junk
      have h0 : str "\r" ++ junk = '\r' :: junk := rfl
      rw [h0]
      rw [show pn ++ (str "                      Ep: " ++
            (str "101" ++ '\r' :: junk)) =
          (pn ++ (str "                      Ep: " ++ str "101")) ++
            '\r' :: junk by simp [List.append_assoc]]
      rw [firstLine_of_shape _ _ hall]
      simp [List.append_assoc, hlit]
    have hfl : firstLine (model_sheet_text_3d pn (str "101") at_ tn an asg vn) =
        pn ++ str "                      Ep: 101" := by
      have h101 : ¬ (str "101" : List Char) = [] := by decide
      simp only [model_sheet_text_3d, if_neg h101]
      split_ifs <;> (simp only [List.append_assoc]; exact shape _)
    refine ⟨hfl, ?_⟩
    rw [hfl]
    refine ⟨pn ++ str "                      ", [], ?_⟩
    have hlit2 : str "                      " ++ str "Ep: 101" =
        str "                      Ep: 101" := by decide
    simp [List.append_assoc, hlit2]

/-- Witness for C5: both conjuncts applied at concrete metadata. -/
theorem threeD_episode_segment_witness :
    (¬ str "Ep:" <:+:
        model_sheet_text_3d (str "ProjX") [] (str "Prop") (str "Design")
          (str "Chair") (str "Ann") (str "chair_v02")) ∧
    firstLine (model_sheet_text_3d (str "ProjX") (str "101") (str "Prop")
        (str "Design") (str "Chair") (str "Ann") (str "chair_v02")) =
      str "ProjX" ++ str "                      Ep: 101" :=
  ⟨(threeD_episode_segment (str "ProjX") [] (str "Prop") (str "Design")
      (str "Chair") (str "Ann") (str "chair_v02")).1 rfl (by decide),
    ((threeD_episode_segment (str "ProjX") (str "101") (str "Prop")
      (str "Design") (str "Chair") (str "Ann") (str "chair_v02")).2 rfl
      (by decide)).1⟩

/- ------------------------------------------------------------------ -/
/- Filename/version resolver: `add_model_sheet_layer.py`.               -/
/- ------------------------------------------------------------------ -/

/-- Python `max` over a list of ints, total-ized with a default that the
source never reaches (it guards the empty case first). -/
def pyMax (l : List ℤ) : ℤ :=
  match l with
  | [] => 0
  | v :: vs => vs.foldl max v

/-- `add_model_sheet_layer.py` lines 566-589 (`get_next_version_number`):
`if len(versions) == 0: return 1 else: return max(versions) + 1`.  The scan
of the work template against paths on disk (an external collaborator) is
abstracted: the function is modelled over the list of version numbers that
scan extracts. -/
def get_next_version_number (versions : List ℤ) : ℤ :=
  if versions.length = 0 then 1 else pyMax versions + 1

/-- The seed of a `foldl max` is a lower bound of the result. -/
theorem le_foldl_max_base (v : ℤ) (vs : List ℤ) : v ≤ vs.foldl max v := by
  induction vs generalizing v with
  | nil => exact le_rfl
  | cons a l ih => exact le_trans (le_max_left v a) (ih (max v a))

/-- `foldl max` returns one of the candidates. -/
theorem foldl_max_mem (v : ℤ) (vs : List ℤ) : vs.foldl max v ∈ v :: vs := by
  induction vs generalizing v with
  | nil => simp
  | cons a l ih =>
    have h := ih (max v a)
    rcases max_choice v a with hc | hc <;> rw [hc] at h <;>
      simp only [List.foldl_cons, hc] <;>
      rcases List.mem_cons.mp h with h' | h' <;> simp [h']

/-- `foldl max` dominates every candidate. -/
theorem le_foldl_max (v x : ℤ) (vs : List ℤ) (h : x ∈ v :: vs) :
    x ≤ vs.foldl max v := by
  induction vs generalizing v with
  | nil =>
    rw [List.mem_singleton] at h
    exact h ▸ le_rfl
  | cons a l ih =>
    simp only [List.foldl_cons]
    rcases List.mem_cons.mp h with rfl | h'
    · exact le_trans (le_max_left x a) (le_foldl_max_base (max x a) l)
    · rcases List.mem_cons.mp h' with rfl | h''
      · exact le_trans (le_max_right v x) (le_foldl_max_base (max v x) l)
      · exact ih (max v a) (List.mem_cons_of_mem _ h'')

/-- C2: the next-version computation returns 1 for an empty sequence of
existing versions and `max(versions) + 1` otherwise, and it never fills
gaps: prepending any versions dominated by the existing maximum leaves the
result unchanged. -/
theorem next_version_number_spec :
    get_next_version_number [] = 1 ∧
    (∀ vs : List ℤ, vs ≠ [] →
      ∃ m, m ∈ vs ∧ (∀ x ∈ vs, x ≤ m) ∧
        get_next_version_number vs = m + 1) ∧
    (∀ vs ys : List ℤ, vs ≠ [] → (∀ y ∈ ys, ∃ x ∈ vs, y ≤ x) →
      get_next_version_number (ys ++ vs) = get_next_version_number vs) := by
  have main : ∀ vs : List ℤ, vs ≠ [] →
      ∃ m, m ∈ vs ∧ (∀ x ∈ vs, x ≤ m) ∧
        get_next_version_number vs = m + 1 := by
    intro vs hvs
    cases vs with
    | nil => exact absurd rfl hvs
    | cons v t =>
      refine ⟨t.foldl max v, foldl_max_mem v t, ?_, ?_⟩
      · intro x hx
        exact le_foldl_max v x t hx
      · simp [get_next_version_number, pyMax]
  refine ⟨rfl, main, ?_⟩
  intro vs ys hvs hdom
  have hne : ys ++ vs ≠ [] := by
    intro hc
    exact hvs (List.append_eq_nil.mp hc).2
  obtain ⟨m1, hm1, hmax1, heq1⟩ := main (ys ++ vs) hne
  obtain ⟨m2, hm2, hmax2, heq2⟩ := main vs hvs
  have h12 : m1 ≤ m2 := by
    rcases List.mem_append.mp hm1 with h | h
    · obtain ⟨x, hx, hle⟩ := hdom m1 h
      exact le_trans hle (hmax2 x hx)
    · exact hmax2 m1 h
  have h21 : m2 ≤ m1 := hmax1 m2 (List.mem_append_right ys hm2)
  rw [heq1, heq2, le_antisymm h12 h21]

/-- Witness for C2: a gap below the maximum does not change the result. -/
theorem next_version_number_spec_witness :
    get_next_version_number (([2] : List ℤ) ++ [7, 5]) =
      get_next_version_number [7, 5] :=
  next_version_number_spec.2.2 [7, 5] [2] (by decide) (by decide)

/-- `pySplit` produces exactly one more piece than there are separators. -/
theorem pySplit_length (sep : Char) (s : List Char) :
    (pySplit sep s).length = s.count sep + 1 := by
  induction s with
  | nil => simp [pySplit]
  | cons x rest ih =>
    by_cases hx : x = sep
    · subst hx
      simp [pySplit, List.count_cons, ih]
    · cases hr : pySplit sep rest with
      | nil => exact absurd hr (pySplit_ne_nil sep rest)
      | cons h t =>
        rw [hr] at ih
        simp [pySplit, hx, hr, List.count_cons, ← ih]

/-- Unfolding equation of `pySplit` at a separator. -/
theorem pySplit_cons_pos (sep : Char) (rest : List Char) :
    pySplit sep (sep :: rest) = [] :: pySplit sep rest := by
  simp [pySplit]

/-- Unfolding equation of `pySplit` at a non-separator. -/
theorem pySplit_cons_neg (sep x : Char) (rest h' : List Char)
    (t : List (List Char)) (hx : x ≠ sep) (hr : pySplit sep rest = h' :: t) :
    pySplit sep (x :: rest) = (x :: h') :: t := by
  simp [pySplit, hx, hr]

/-- A one-piece split means the string holds no separator and is returned
whole. -/
theorem pySplit_one (sep : Char) :
    ∀ s a : List Char, pySplit sep s = [a] → s = a ∧ sep ∉ a := by
  intro s
  induction s with
  | nil =>
    intro a h
    simp only [pySplit] at h
    injection h with h1 _
    exact ⟨h1, by rw [← h1]; exact List.not_mem_nil sep⟩
  | cons x rest ih =>
    intro a h
    by_cases hx : x = sep
    · subst hx
      rw [pySplit_cons_pos] at h
      injection h with _ h2
      exact absurd h2 (pySplit_ne_nil x rest)
    · cases hr : pySplit sep rest with
      | nil => exact absurd hr (pySplit_ne_nil sep rest)
      | cons h' t =>
        rw [pySplit_cons_neg sep x rest h' t hx hr] at h
        injection h with h1 h2
        obtain ⟨hrest, hsep⟩ := ih h' (by rw [hr, h2])
        refine ⟨by rw [← h1, hrest], ?_⟩
        intro hm
        rw [← h1] at hm
        rcases List.mem_cons.mp hm with h'' | h''
        · exact hx h''.symm
        · exact hsep h''

/-- A two-piece split recovers the two separator-free pieces around the
single separator. -/
theorem pySplit_two (sep : Char) :
    ∀ s a b : List Char, pySplit sep s = [a, b] →
      s = a ++ sep :: b ∧ sep ∉ a ∧ sep ∉ b := by
  intro s
  induction s with
  | nil =>
    intro a b h
    simp only [pySplit] at h
    injection h with _ h2
    exact List.noConfusion h2
  | cons x rest ih =>
    intro a b h
    by_cases hx : x = sep
    · subst hx
      rw [pySplit_cons_pos] at h
      injection h with h1 h2
      obtain ⟨hrest, hsep⟩ := pySplit_one x rest b (by rw [h2])
      refine ⟨by rw [← h1, hrest]; rfl, by rw [← h1]; exact List.not_mem_nil x, ?_⟩
      exact hrest ▸ hsep
    · cases hr : pySplit sep rest with
      | nil => exact absurd hr (pySplit_ne_nil sep rest)
      | cons h' t =>
        rw [pySplit_cons_neg sep x rest h' t hx hr] at h
        injection h with h1 h2
        obtain ⟨hrest, hna, hnb⟩ := ih h' b (by rw [hr, h2])
        refine ⟨by rw [← h1, hrest]; rfl, ?_, hnb⟩
        intro hm
        rw [← h1] at hm
        rcases List.mem_cons.mp hm with h'' | h''
        · exact hx h''.symm
        · exact hna h''

/-- `add_model_sheet_layer.py` lines 592-598 (`_get_version_name_from_filename`):
`version_name, extension = filename.rsplit('.')` — an UNBOUNDED `rsplit`,
which splits at every dot; the two-name unpacking succeeds only when the
split yields exactly two pieces (exactly one dot), and any other shape
raises and falls into the `except` branch, which returns the filename
unchanged. -/
def _get_version_name_from_filename (filename : List Char) : List Char :=
  match pySplit '.' filename with
  | [version_name, _extension] => version_name
  | _ => filename

/-- C3 counterexample: for the multi-dot filename "a.b.c" the code returns
the filename unchanged (the unbounded `rsplit('.')` yields three pieces and
the unpacking raises), not "a.b" as splitting on the last dot would. -/
theorem version_name_multidot_counterexample :
    _get_version_name_from_filename (str "a.b.c") = str "a.b.c" ∧
    _get_version_name_from_filename (str "a.b.c") ≠ str "a.b" := by
  decide

/-- C3 (amended): the operation strips the extension only when the filename
contains exactly one dot (returning everything before that dot); a filename
with no dot or with several dots is returned unchanged; it never raises. -/
theorem version_name_from_filename_spec :
    ∀ s : List Char,
      (s.count '.' = 1 →
        ∃ a b, s = a ++ '.' :: b ∧ ('.' : Char) ∉ a ∧ ('.' : Char) ∉ b ∧
          _get_version_name_from_filename s = a) ∧
      (s.count '.' ≠ 1 → _get_version_name_from_filename s = s) := by
  intro s
  constructor
  · intro h1
    have hlen : (pySplit '.' s).length = 2 := by
      rw [pySplit_length, h1]
    rcases hps : pySplit '.' s with _ | ⟨a, _ | ⟨b, _ | ⟨c, t⟩⟩⟩ <;>
      rw [hps] at hlen <;> simp at hlen
    obtain ⟨hs, hna, hnb⟩ := pySplit_two '.' s a b hps
    refine ⟨a, b, hs, hna, hnb, ?_⟩
    unfold _get_version_name_from_filename
    rw [hps]
  · intro h1
    have hlen : (pySplit '.' s).length ≠ 2 := by
      rw [pySplit_length]
      omega
    rcases hps : pySplit '.' s with _ | ⟨a, _ | ⟨b, _ | ⟨c, t⟩⟩⟩ <;>
      unfold _get_version_name_from_filename <;> rw [hps]
    exact absurd (by simp [hps]) hlen

/-- Witness for C3: the single-dot filename "shot010.psd" is split at its
dot. -/
theorem version_name_from_filename_spec_witness :
    (str "shot010.psd").count '.' = 1 ∧
    (∃ a b, str "shot010.psd" = a ++ '.' :: b ∧ ('.' : Char) ∉ a ∧
      ('.' : Char) ∉ b ∧
      _get_version_name_from_filename (str "shot010.psd") = a) :=
  ⟨by decide, (version_name_from_filename_spec (str "shot010.psd")).1 (by decide)⟩

/- ------------------------------------------------------------------ -/
/- Output path composer: `_get_output_filename`.                        -/
/- ------------------------------------------------------------------ -/

/-- A string without the separator r-splits to `none`. -/
theorem pyRSplit1_none_of_not_mem (sep : Char) :
    ∀ s : List Char, sep ∉ s → pyRSplit1 sep s = none := by
  intro s
  induction s with
  | nil => intro _; rfl
  | cons c rest ih =>
    intro h
    have hc : c ≠ sep := fun hc => h (hc ▸ List.mem_cons_self c rest)
    have hrest : sep ∉ rest := fun hm => h (List.mem_cons_of_mem c hm)
    simp [pyRSplit1, ih hrest, hc]

/-- A `none` r-split means the separator does not occur. -/
theorem not_mem_of_pyRSplit1_none (sep : Char) :
    ∀ s : List Char, pyRSplit1 sep s = none → sep ∉ s := by
  intro s
  induction s with
  | nil => intro _; exact List.not_mem_nil sep
  | cons c rest ih =>
    intro h
    cases hr : pyRSplit1 sep rest with
    | some p =>
      obtain ⟨a, b⟩ := p
      simp [pyRSplit1, hr] at h
    | none =>
      simp only [pyRSplit1, hr] at h
      by_cases hc : c = sep
      · rw [if_pos hc] at h
        exact absurd h (by simp)
      · intro hm
        rcases List.mem_cons.mp hm with h' | h'
        · exact hc h'.symm
        · exact ih hr h'

/-- A successful r-split recovers the string, with no separator after the
split point (the split is at the LAST occurrence). -/
theorem pyRSplit1_some (sep : Char) :
    ∀ s a b : List Char, pyRSplit1 sep s = some (a, b) →
      s = a ++ sep :: b ∧ sep ∉ b := by
  intro s
  induction s with
  | nil => intro a b h; simp [pyRSplit1] at h
  | cons c rest ih =>
    intro a b h
    cases hr : pyRSplit1 sep rest with
    | some p =>
      obtain ⟨a', b'⟩ := p
      simp only [pyRSplit1, hr] at h
      injection h with h1
      injection h1 with h2 h3
      obtain ⟨hrest, hnb⟩ := ih a' b' hr
      subst h3
      refine ⟨?_, hnb⟩
      rw [← h2, hrest]
      rfl
    | none =>
      simp only [pyRSplit1, hr] at h
      by_cases hc : c = sep
      · rw [if_pos hc] at h
        injection h with h1
        injection h1 with h2 h3
        subst h3
        rw [← h2, hc]
        exact ⟨rfl, not_mem_of_pyRSplit1_none sep rest hr⟩
      · rw [if_neg hc] at h
        exact absurd h (by simp)

/-- R-splitting a string built around a final separator finds exactly that
separator. -/
theorem pyRSplit1_append (sep : Char) :
    ∀ a b : List Char, sep ∉ b →
      pyRSplit1 sep (a ++ sep :: b) = some (a, b) := by
  intro a
  induction a with
  | nil =>
    intro b hb
    simp [pyRSplit1, pyRSplit1_none_of_not_mem sep b hb]
  | cons x a' ih =>
    intro b hb
    simp only [List.cons_append, pyRSplit1]
    rw [show a'.append (sep :: b) = a' ++ sep :: b from rfl, ih b hb]

/-- `add_model_sheet_layer.py` lines 619-622 (posix `os.sep` is `'/'`): the
base filename is the piece after the last path separator; when no separator
occurs the rsplit unpacking raises and the `except` branch keeps the whole
`local_path`. -/
def base_filename (local_path : List Char) : List Char :=
  match pyRSplit1 '/' local_path with
  | some (_, f) => f
  | none => local_path

/-- `add_model_sheet_layer.py` lines 617 and 624-627: split the base
filename at its last dot; `extension` remains `None` when there is no dot
(the unpacking raises and the `except` branch keeps the whole name). -/
def split_ext (output_filename : List Char) : List Char × Option (List Char) :=
  match pyRSplit1 '.' output_filename with
  | some (b, e) => (b, some e)
  | none => (output_filename, none)

/-- `add_model_sheet_layer.py` lines 631-634: prefix sentinel
substitutions ("Current Scene" and "Ship Episode" are replaced by the
corresponding context values, anything else is literal). -/
def resolvePre (p current_sc ship_episode : List Char) : List Char :=
  if p = str "Current Scene" then current_sc
  else if p = str "Ship Episode" then ship_episode
  else p

/-- `add_model_sheet_layer.py` lines 639-640: suffix sentinel substitution
("YYYYMMDD" is replaced by today's date, formatted `%Y%m%d` by the
module-level `today` global, passed in here as `todayStr`). -/
def resolveSfx (s todayStr : List Char) : List Char :=
  if s = str "YYYYMMDD" then todayStr else s

/-- `add_model_sheet_layer.py` lines 630-636: the prefix is applied only
when the policy is not the "None" sentinel AND the resolved prefix is
non-empty. -/
def pre_stage (p current_sc ship_episode stem : List Char) : List Char :=
  if p ≠ str "None" then
    (if resolvePre p current_sc ship_episode ≠ [] then
      resolvePre p current_sc ship_episode ++ '_' :: stem
    else stem)
  else stem

/-- `add_model_sheet_layer.py` lines 638-641: the suffix is appended
unconditionally (joined by an underscore) whenever the policy is not the
"None" sentinel — even when the resolved suffix is empty. -/
def sfx_stage (s todayStr stem : List Char) : List Char :=
  if s ≠ str "None" then stem ++ '_' :: resolveSfx s todayStr else stem

/-- `add_model_sheet_layer.py` lines 643-646: reattach the extension when
one was extracted. -/
def with_ext (b : List Char) (e : Option (List Char)) : List Char :=
  match e with
  | some e => b ++ '.' :: e
  | none => b

/-- `add_model_sheet_layer.py` lines 615-648 (`_get_output_filename`):
compose the output filename from the source path and the prefix/suffix
policies; returns the filename together with the extracted extension. -/
def _get_output_filename
    (local_path pre sfx current_sc ship_episode todayStr : List Char) :
    List Char × Option (List Char) :=
  let output_filename := base_filename local_path
  let be := split_ext output_filename
  let output_basename := pre_stage pre current_sc ship_episode be.1
  let output_basename := sfx_stage sfx todayStr output_basename
  (with_ext output_basename be.2, be.2)

/-- C6: with both policies set to the "None" sentinel, a path whose base
filename has exactly one dot passes through unchanged, and re-extracting
the extension from the output yields the input's extension. -/
theorem output_filename_roundtrip (p cs se td : List Char)
    (h : (base_filename p).count '.' = 1) :
    (_get_output_filename p (str "None") (str "None") cs se td).1 =
      base_filename p ∧
    ∃ stem ext,
      pyRSplit1 '.' (base_filename p) = some (stem, ext) ∧
      (_get_output_filename p (str "None") (str "None") cs se td).2 =
        some ext ∧
      pyRSplit1 '.'
        (_get_output_filename p (str "None") (str "None") cs se td).1 =
        some (stem, ext) := by
  cases hr : pyRSplit1 '.' (base_filename p) with
  | none =>
    exfalso
    have hnm := not_mem_of_pyRSplit1_none '.' _ hr
    rw [← List.count_eq_zero] at hnm
    omega
  | some pr =>
    obtain ⟨stem, ext⟩ := pr
    obtain ⟨hs, hnb⟩ := pyRSplit1_some '.' _ stem ext hr
    have hNone : ¬(str "None" ≠ str "None") := by decide
    have hf : _get_output_filename p (str "None") (str "None") cs se td =
        (stem ++ '.' :: ext, some ext) := by
      simp [_get_output_filename, split_ext, hr, pre_stage, sfx_stage,
        hNone, with_ext]
    refine ⟨?_, stem, ext, rfl, ?_, ?_⟩
    · rw [hf]; exact hs.symm
    · rw [hf]
    · rw [hf]
      exact pyRSplit1_append '.' stem ext hnb

/-- Witness for C6: the concrete path "assets/shot010.psd" round-trips. -/
theorem output_filename_roundtrip_witness :
    (base_filename (str "assets/shot010.psd")).count '.' = 1 ∧
    (_get_output_filename (str "assets/shot010.psd") (str "None")
        (str "None") (str "SC010") (str "EP01") (str "20261012")).1 =
      base_filename (str "assets/shot010.psd") :=
  ⟨by decide,
    (output_filename_roundtrip (str "assets/shot010.psd") (str "SC010")
      (str "EP01") (str "20261012") (by decide)).1⟩

/-- C7: whenever the suffix policy is not the "None" sentinel the resolved
suffix is appended joined by an underscore — even when it resolves to the
empty string, which leaves a bare trailing underscore on the base name —
while a prefix that resolves to the empty string is not applied at all. -/
theorem output_filename_sfx_always_appended :
    ∀ p cs se td pre sfx : List Char,
      (sfx ≠ str "None" →
        (_get_output_filename p pre sfx cs se td).1 =
          with_ext
            (pre_stage pre cs se (split_ext (base_filename p)).1 ++
              '_' :: resolveSfx sfx td)
            (split_ext (base_filename p)).2) ∧
      ((_get_output_filename p pre [] cs se td).1 =
        with_ext
          (pre_stage pre cs se (split_ext (base_filename p)).1 ++ ['_'])
          (split_ext (base_filename p)).2) ∧
      (pre ≠ str "None" → resolvePre pre cs se = [] →
        _get_output_filename p pre sfx cs se td =
          _get_output_filename p (str "None") sfx cs se td) := by
  intro p cs se td pre sfx
  refine ⟨?_, ?_, ?_⟩
  · intro hs
    simp [_get_output_filename, sfx_stage, hs]
  · have h1 : (([] : List Char) ≠ str "None") := by decide
    have h2 : resolveSfx [] td = [] := by
      have : ¬(([] : List Char) = str "YYYYMMDD") := by decide
      simp [resolveSfx, this]
    simp [_get_output_filename, sfx_stage, h1, h2]
  · intro hp hres
    have hN : ¬(str "None" ≠ str "None") := by decide
    simp [_get_output_filename, pre_stage, hp, hres, hN]

/-- Witness for C7: the empty-string prefix behaves exactly like the "None"
sentinel on a concrete path. -/
theorem output_filename_sfx_always_appended_witness :
    _get_output_filename (str "d/shot010.psd") (str "") (str "final")
        (str "SC010") (str "EP01") (str "20261012") =
      _get_output_filename (str "d/shot010.psd") (str "None") (str "final")
        (str "SC010") (str "EP01") (str "20261012") :=
  (output_filename_sfx_always_appended (str "d/shot010.psd") (str "SC010")
      (str "EP01") (str "20261012") (str "") (str "final")).2.2
    (by decide) (by decide)

/-- C10: the policies are sentinel strings compared against the prefix and
suffix values themselves — a literal "None" prefix behaves exactly like the
no-prefix empty string (so "None" is never prepended), a literal "None"
suffix appends nothing, and a literal "YYYYMMDD" suffix is always replaced
by the current date rather than appended verbatim. -/
theorem output_filename_sentinels :
    ∀ p cs se td pre : List Char,
      _get_output_filename p (str "None") (str "None") cs se td =
        _get_output_filename p (str "") (str "None") cs se td ∧
      (_get_output_filename p pre (str "None") cs se td).1 =
        with_ext (pre_stage pre cs se (split_ext (base_filename p)).1)
          (split_ext (base_filename p)).2 ∧
      (_get_output_filename p pre (str "YYYYMMDD") cs se td).1 =
        with_ext
          (pre_stage pre cs se (split_ext (base_filename p)).1 ++ '_' :: td)
          (split_ext (base_filename p)).2 := by
  intro p cs se td pre
  have hN : ¬(str "None" ≠ str "None") := by decide
  have hE1 : (str "" : List Char) ≠ str "None" := by decide
  have hE2 : ¬((str "" : List Char) = str "Current Scene") := by decide
  have hE3 : ¬((str "" : List Char) = str "Ship Episode") := by decide
  have hY1 : (str "YYYYMMDD" : List Char) ≠ str "None" := by decide
  have hY2 : resolveSfx (str "YYYYMMDD") td = td := by simp [resolveSfx]
  refine ⟨?_, ?_, ?_⟩
  · have hpre1 : ∀ X, pre_stage (str "None") cs se X = X := by
      intro X
      simp [pre_stage, hN]
    have hpre2 : ∀ X, pre_stage (str "") cs se X = X := by
      intro X
      have hE0 : (str "" : List Char) = [] := rfl
      have hCS : ¬(str "Current Scene" = ([] : List Char)) := by decide
      have hSE : ¬(str "Ship Episode" = ([] : List Char)) := by decide
      have hNn : ¬(str "None" = ([] : List Char)) := by decide
      simp [pre_stage, resolvePre, hE1, hE2, hE3, hE0, hCS, hSE, hNn]
    simp [_get_output_filename, hpre1, hpre2]
  · simp [_get_output_filename, sfx_stage, hN]
  · simp [_get_output_filename, sfx_stage, hY1, hY2]

/- ------------------------------------------------------------------ -/
/- Export/Publish orchestrator, publish-as-new-version path (mode 0).   -/
/- ------------------------------------------------------------------ -/

/-- Side effects of the mode-0 (publish-as-new-version) document sequence,
modelled as events against the external collaborators. -/
inductive PubEvent where
  | save_to_path (path : List Char)
  | export_jpeg (output : Option (List Char)) (max_size quality : ℕ)
  | create_version (code : List Char)
  | register_publish (path name file_type : List Char)
  | close_document
  | upload_version_media (path : List Char)
  deriving DecidableEq

/-- `add_model_sheet_layer.py` lines 352-355: the JPEG proxy publish name
is computed by `publish_name.replace('.psd', '.jpg')` when the original
extension is `psd`, by `.replace('.psb', '.jpg')` when it is `psb` — and is
NEVER ASSIGNED for any other extension (the `if/elif` has no `else`), so a
later read of `publish_jpg_name` raises `UnboundLocalError`. -/
def publishJpgName (publish_name original_extension : List Char) :
    Option (List Char) :=
  if original_extension = str "psd" then
    some (pyStrReplace publish_name (str ".psd") (str ".jpg"))
  else if original_extension = str "psb" then
    some (pyStrReplace publish_name (str ".psb") (str ".jpg"))
  else none

/-- `add_model_sheet_layer.py` lines 248-399 (the side-effecting tail of
the mode-0 branch, after the banner is drawn): save to the publish path,
export the thumbnail, create the Version record, register the main
PublishedFile, then — when the original extension is not a raster preview
format (`jpg`/`jpeg`/`png`, line 350) — export and register a JPEG proxy,
and finally close the document and upload the version media.  The version
naming, playlist and note-copying records are carried by the event
arguments; a `.error` result models the uncaught Python exception raised
when `publish_jpg_name` was never assigned (lines 352-359). -/
def publish_new_version_events
    (publish_name original_extension publish_path published_jpg_path
      version_name : List Char) : Except (List Char) (List PubEvent) :=
  let head := [PubEvent.save_to_path publish_path,
               PubEvent.export_jpeg none 2048 12,
               PubEvent.create_version version_name,
               PubEvent.register_publish publish_path publish_name
                 (str "Photoshop Image")]
  if original_extension ∉ [str "jpg", str "jpeg", str "png"] then
    match publishJpgName publish_name original_extension with
    | some jpg_name =>
        Except.ok (head ++
          [PubEvent.export_jpeg (some published_jpg_path) 4096 12,
           PubEvent.register_publish published_jpg_path jpg_name (str "jpg"),
           PubEvent.close_document,
           PubEvent.upload_version_media publish_path])
    | none => Except.error (str "UnboundLocalError: publish_jpg_name")
  else
    Except.ok (head ++
      [PubEvent.close_document,
       PubEvent.upload_version_media publish_path])

/-- C8 (code bug): a `psd` source gets a JPEG proxy registered; a source
already in a raster preview format (`jpg`) gets none; but a non-raster
extension outside {psd, psb} — here `tif` — makes the code raise
`UnboundLocalError` instead of registering the proxy the claim promises. -/
theorem publish_proxy_decision_at_inputs :
    (∃ evs, publish_new_version_events (str "model.psd") (str "psd")
        (str "/pub/model.psd") (str "/pub/model.jpg") (str "model_v02") =
          Except.ok evs ∧
      PubEvent.register_publish (str "/pub/model.jpg") (str "model.jpg")
        (str "jpg") ∈ evs) ∧
    (∃ evs, publish_new_version_events (str "model.jpg") (str "jpg")
        (str "/pub/model.jpg") (str "/pub/model.jpg") (str "model_v02") =
          Except.ok evs ∧
      evs.filter (fun ev => match ev with
        | PubEvent.register_publish _ _ ft => decide (ft = str "jpg")
        | _ => false) = []) ∧
    publish_new_version_events (str "model.tif") (str "tif")
        (str "/pub/model.tif") (str "/pub/model.jpg") (str "model_v02") =
      Except.error (str "UnboundLocalError: publish_jpg_name") := by
  refine ⟨⟨_, rfl, ?_⟩, ⟨_, rfl, ?_⟩, rfl⟩
  · decide
  · decide
